import Mathlib

/-!
Shallow embedding of the `relay` Lens Studio repository, covering the pure
logic of `CircuitTopologyAnalyzer`, `BreadboardDepthMapper` and
`BreadboardAROverlay`.  JavaScript numbers are modelled as rationals (ℚ),
`NaN` outcomes of `parseFloat` as `Option.none`, strings as `String` or
`List Char`, and the JS `Map` either as an association list (insertion
ordered, like a JS `Map`) or as a total function with empty default.
Host-SDK objects (scene objects, materials, the depth system) carry no
computational content of their own; they are modelled by presence flags or
by oracle functions passed as parameters.
-/

namespace Relay

/-- `ComponentType` enum from `BreadboardAssistant`. -/
inductive ComponentType
  | resistor
  | opAmp
  | breadboard
  | wire
  | capacitor
  | inductor
  | diode
  | transistor
  | unknown
deriving DecidableEq, Repr

/-- `DetectedComponent` interface from `BreadboardAssistant`; only the fields the
analysed code reads are kept (`boundingBox`, `pins` and `additionalInfo` are
never inspected by the modelled functions).  The optional `value` string is
`Option (List Char)`; `none` models `undefined`. -/
structure DetectedComponent where
  type : ComponentType
  posX : ℚ
  posY : ℚ
  confidence : ℚ
  value : Option (List Char) := none
deriving DecidableEq, Repr

instance : Inhabited DetectedComponent :=
  ⟨⟨ComponentType.unknown, 0, 0, 0, none⟩⟩

/-- JS truthiness of an optional string: `undefined` and the empty string are
falsy. -/
def jsTruthyStr (v : Option (List Char)) : Bool :=
  match v with
  | none => false
  | some s => !s.isEmpty

/-- `BreadboardHole` interface from `BreadboardAssistant`. -/
structure BreadboardHole where
  x : ℚ
  y : ℚ
  row : ℕ
  column : ℕ
  isConnected : Bool
deriving DecidableEq, Repr

namespace CircuitTopologyAnalyzer

/-- `CircuitType` enum. -/
inductive CircuitType
  | nonInvertingOpAmp
  | invertingOpAmp
  | voltageDivider
  | lowPassFilter
  | highPassFilter
  | unknown
deriving DecidableEq, Repr

/-- `ConnectionType` enum. -/
inductive ConnectionType
  | input
  | output
  | power
  | ground
  | feedback
  | signal
deriving DecidableEq, Repr

/-- `CircuitConnection` interface. -/
structure CircuitConnection where
  fromComponent : DetectedComponent
  toComponent : DetectedComponent
  connectionType : ConnectionType
  fromPin : Option String
  toPin : Option String
  confidence : ℚ
deriving DecidableEq, Repr

/-- `CircuitAnalysisResult` interface (`bandwidth` is never written by the
modelled code paths and is omitted). -/
structure CircuitAnalysisResult where
  circuitType : CircuitType
  components : List DetectedComponent
  connections : List CircuitConnection
  completeness : ℚ
  missingComponents : List String
  errors : List String
  isValid : Bool
  gain : Option ℚ
deriving DecidableEq, Repr

/-- The filter `this.detectedComponents.filter(c => c.type === ComponentType.Resistor)`
that every analyzer method recomputes. -/
def resistorsOf (components : List DetectedComponent) : List DetectedComponent :=
  components.filter (fun c => decide (c.type = ComponentType.resistor))

/-- The filter `this.detectedComponents.filter(c => c.type === ComponentType.OpAmp)`. -/
def opAmpsOf (components : List DetectedComponent) : List DetectedComponent :=
  components.filter (fun c => decide (c.type = ComponentType.opAmp))

/-- `detectCircuitType`: rule-based classification from component counts. -/
def detectCircuitType (components : List DetectedComponent) : CircuitType :=
  let resistors := resistorsOf components
  let opAmps := opAmpsOf components
  if 2 ≤ resistors.length ∧ 1 ≤ opAmps.length then
    CircuitType.nonInvertingOpAmp
  else if 2 ≤ resistors.length ∧ 1 ≤ opAmps.length then
    CircuitType.invertingOpAmp
  else if 2 ≤ resistors.length ∧ opAmps.length = 0 then
    CircuitType.voltageDivider
  else
    CircuitType.unknown

/-! ### parseResistorValue and the gain formulas

`parseResistorValue` lowercases, strips whitespace and dispatches on the
unit suffix before calling JS `parseFloat`.  `parseFloat` is embedded over
ℚ: it parses an optional sign, decimal digits with an optional fraction and
an optional exponent, and returns `none` for `NaN` (no parsable prefix).
Float rounding and the `Infinity` literal are outside the model. -/

/-- Value of a decimal digit character. -/
def digitVal (c : Char) : ℕ := c.toNat - '0'.toNat

/-- Split off the leading run of decimal digits. -/
def takeDigits (cs : List Char) : List Char × List Char :=
  (cs.takeWhile Char.isDigit, cs.dropWhile Char.isDigit)

/-- Numeric value of a digit string, most significant digit first. -/
def digitsToNat (ds : List Char) : ℕ :=
  ds.foldl (fun a c => a * 10 + digitVal c) 0

/-- Consume an optional leading sign; `true` means negative. -/
def parseSign (cs : List Char) : Bool × List Char :=
  match cs with
  | '+' :: t => (false, t)
  | '-' :: t => (true, t)
  | _ => (false, cs)

/-- Exponent part of a JS float literal, as sign flag and magnitude; an `e` not
followed by digits contributes exponent 0 (JS backtracks to the longest valid
literal). -/
def parseExponent (cs : List Char) : Bool × ℕ :=
  match cs with
  | 'e' :: t =>
    let (neg, t1) := parseSign t
    let (ds, _) := takeDigits t1
    if ds.isEmpty then (false, 0) else (neg, digitsToNat ds)
  | _ => (false, 0)

/-- JS `parseFloat` on an already lowercased character list, as an exact scaled
integer: `some (n, d)` stands for the value `n / 10 ^ d`, computed from the
optional sign, the integer and fraction digit runs and the optional exponent,
so it equals `±(intDigits.fracDigits) · 10^(±e)` exactly.  `none` is `NaN`.
(The `Infinity` literal and binary-float rounding are outside the model.) -/
def parseFloatScaled (cs : List Char) : Option (ℤ × ℕ) :=
  let (neg, cs1) := parseSign cs
  let (ip, cs2) := takeDigits cs1
  let (fp, cs3) :=
    match cs2 with
    | '.' :: t => takeDigits t
    | _ => (([] : List Char), cs2)
  if ip.isEmpty ∧ fp.isEmpty then none
  else
    let mant : ℕ := digitsToNat (ip ++ fp)
    let (eneg, emag) := parseExponent cs3
    let n : ℤ := (if neg then -(mant : ℤ) else (mant : ℤ)) * (if eneg then 1 else 10 ^ emag)
    some (n, fp.length + (if eneg then emag else 0))

/-- JS `parseFloat` as a rational; `none` is `NaN`. -/
def parseFloat (cs : List Char) : Option ℚ :=
  (parseFloatScaled cs).map (fun p => (p.1 : ℚ) / 10 ^ p.2)

/-- JS `toLowerCase` restricted to the characters this code can meet:
ASCII letters plus the two Unicode capital omegas, which lowercase to ω. -/
def jsToLower (c : Char) : Char :=
  if c.toNat = 0x3A9 ∨ c.toNat = 0x2126 then Char.ofNat 0x3C9 else c.toLower

/-- JS `String.prototype.replace` with a plain (non-regex) pattern removes only
the first occurrence. -/
def removeFirst (c : Char) : List Char → List Char
  | [] => []
  | x :: xs => if x = c then xs else x :: removeFirst c xs

/-- Does `pat` start the list? -/
def startsWith (pat : List Char) : List Char → Bool :=
  fun cs =>
    match pat, cs with
    | [], _ => true
    | _ :: _, [] => false
    | p :: ps, x :: xs => p = x && startsWith ps xs

/-- JS `String.prototype.includes` for a substring pattern. -/
def containsSeq (pat : List Char) : List Char → Bool
  | [] => startsWith pat []
  | x :: xs => startsWith pat (x :: xs) || containsSeq pat xs

/-- `parseResistorValue`: lowercase, strip whitespace, dispatch on the unit
suffix (`k`, `m`, `ω`/`ohm`), then `parseFloat`.  A `NaN` intermediate stays
`none` through the scalings. -/
def parseResistorValue (value : List Char) : Option ℚ :=
  let cleanValue := (value.map jsToLower).filter (fun c => !c.isWhitespace)
  if cleanValue.contains 'k' then
    (parseFloat (removeFirst 'k' cleanValue)).map (fun r => r * 1000)
  else if cleanValue.contains 'm' then
    (parseFloat (removeFirst 'm' cleanValue)).map (fun r => r * 1000000)
  else if cleanValue.contains 'ω' || containsSeq ('o' :: 'h' :: 'm' :: []) cleanValue then
    parseFloat (cleanValue.filter (fun c => !(c = 'ω' ∨ c = 'o' ∨ c = 'h' ∨ c = 'm')))
  else
    parseFloat cleanValue

/-- `calculateNonInvertingGain`: `1 + R2/R1` when both parses are positive,
default `1` otherwise (a `NaN` makes the JS comparison false). -/
def calculateNonInvertingGain (inputResistorValue feedbackResistorValue : List Char) : ℚ :=
  match parseResistorValue inputResistorValue, parseResistorValue feedbackResistorValue with
  | some r1, some r2 => if 0 < r1 ∧ 0 < r2 then 1 + r2 / r1 else 1
  | _, _ => 1

/-- `calculateInvertingGain`: `-(R2/R1)` when both parses are positive,
default `-1` otherwise. -/
def calculateInvertingGain (inputResistorValue feedbackResistorValue : List Char) : ℚ :=
  match parseResistorValue inputResistorValue, parseResistorValue feedbackResistorValue with
  | some r1, some r2 => if 0 < r1 ∧ 0 < r2 then -(r2 / r1) else -1
  | _, _ => -1

/-- `calculateVoltageDividerGain`: `R2/(R1+R2)` when both parses are positive,
default `0.5` otherwise. -/
def calculateVoltageDividerGain (r1Value r2Value : List Char) : ℚ :=
  match parseResistorValue r1Value, parseResistorValue r2Value with
  | some r1, some r2 => if 0 < r1 ∧ 0 < r2 then r2 / (r1 + r2) else 0.5
  | _, _ => 0.5

/-! ### analyzeCircuitTopology and the per-type analyzers

The analyzers mutate a `CircuitAnalysisResult` record; the embedding threads
the record functionally.  Component-level inputs of the host component that
the analyzers read (`enableGainCalculation`, `analysisConfidenceThreshold`)
are passed as a parameter record. -/

/-- The `@input` fields of `CircuitTopologyAnalyzer` read by the analyzers. -/
structure AnalyzerParams where
  enableGainCalculation : Bool
  analysisConfidenceThreshold : ℚ

/-- `calculateOpAmpConnections`: the three hard-coded op amp connections. -/
def calculateOpAmpConnections (inputResistor feedbackResistor opAmp : DetectedComponent) :
    List CircuitConnection :=
  [{ fromComponent := inputResistor, toComponent := opAmp,
     connectionType := ConnectionType.input, fromPin := some "output", toPin := some "IN+",
     confidence := 0.9 },
   { fromComponent := feedbackResistor, toComponent := opAmp,
     connectionType := ConnectionType.feedback, fromPin := some "input", toPin := some "IN+",
     confidence := 0.9 },
   { fromComponent := opAmp, toComponent := feedbackResistor,
     connectionType := ConnectionType.output, fromPin := some "OUT", toPin := some "output",
     confidence := 0.9 }]

/-- `calculateOpAmpCompleteness`: 0.3 for two resistors, 0.3 for an op amp,
0.4 for at least three connections. -/
def calculateOpAmpCompleteness (result : CircuitAnalysisResult) : ℚ :=
  let resistors := resistorsOf result.components
  let opAmps := opAmpsOf result.components
  let score : ℚ := 0
  let score := if 2 ≤ resistors.length then score + 0.3 else score
  let score := if 1 ≤ opAmps.length then score + 0.3 else score
  let score := if 3 ≤ result.connections.length then score + 0.4 else score
  score

/-- `calculateVoltageDividerCompleteness`: 0.8 for two resistors, 0.2 for at
least one connection. -/
def calculateVoltageDividerCompleteness (result : CircuitAnalysisResult) : ℚ :=
  let resistors := resistorsOf result.components
  let score : ℚ := 0
  let score := if 2 ≤ resistors.length then score + 0.8 else score
  let score := if 1 ≤ result.connections.length then score + 0.2 else score
  score

/-- `calculateCompleteness`: dispatch on the circuit type, capped at 1. -/
def calculateCompleteness (result : CircuitAnalysisResult) : ℚ :=
  let completeness :=
    match result.circuitType with
    | CircuitType.nonInvertingOpAmp => calculateOpAmpCompleteness result
    | CircuitType.invertingOpAmp => calculateOpAmpCompleteness result
    | CircuitType.voltageDivider => calculateVoltageDividerCompleteness result
    | _ => (result.components.length : ℚ) / 5
  min completeness 1

/-- `analyzeNonInvertingOpAmp` acting on the threaded result record. -/
def analyzeNonInvertingOpAmp (p : AnalyzerParams) (components : List DetectedComponent)
    (result : CircuitAnalysisResult) : CircuitAnalysisResult :=
  let resistors := resistorsOf components
  let opAmps := opAmpsOf components
  let result :=
    if resistors.length < 2 then
      { result with
        missingComponents := result.missingComponents ++ ["feedback resistor"],
        errors := result.errors ++ ["Need at least 2 resistors for non-inverting op amp"] }
    else result
  let result :=
    if opAmps.length < 1 then
      { result with
        missingComponents := result.missingComponents ++ ["operational amplifier"],
        errors := result.errors ++ ["Need an op amp for non-inverting amplifier"] }
    else result
  match resistors.get? 0, resistors.get? 1, opAmps.get? 0 with
  | some inputResistor, some feedbackResistor, some opAmp =>
    let result :=
      { result with connections := calculateOpAmpConnections inputResistor feedbackResistor opAmp }
    let result :=
      if p.enableGainCalculation ∧ jsTruthyStr inputResistor.value ∧
          jsTruthyStr feedbackResistor.value then
        { result with
          gain := some (calculateNonInvertingGain (inputResistor.value.getD [])
            (feedbackResistor.value.getD [])) }
      else result
    let completeness := calculateCompleteness result
    { result with
      completeness := completeness,
      isValid := decide (p.analysisConfidenceThreshold ≤ completeness) }
  | _, _, _ => result

/-- `analyzeInvertingOpAmp` acting on the threaded result record. -/
def analyzeInvertingOpAmp (p : AnalyzerParams) (components : List DetectedComponent)
    (result : CircuitAnalysisResult) : CircuitAnalysisResult :=
  let resistors := resistorsOf components
  let opAmps := opAmpsOf components
  if resistors.length < 2 ∨ opAmps.length < 1 then
    { result with errors := result.errors ++ ["Inverting op amp requires 2 resistors and 1 op amp"] }
  else
    let inputResistor := resistors.getD 0 default
    let feedbackResistor := resistors.getD 1 default
    let result :=
      if p.enableGainCalculation ∧ jsTruthyStr inputResistor.value ∧
          jsTruthyStr feedbackResistor.value then
        { result with
          gain := some (calculateInvertingGain (inputResistor.value.getD [])
            (feedbackResistor.value.getD [])) }
      else result
    let completeness := calculateCompleteness result
    { result with
      completeness := completeness,
      isValid := decide (p.analysisConfidenceThreshold ≤ completeness) }

/-- `analyzeVoltageDivider` acting on the threaded result record. -/
def analyzeVoltageDivider (p : AnalyzerParams) (components : List DetectedComponent)
    (result : CircuitAnalysisResult) : CircuitAnalysisResult :=
  let resistors := resistorsOf components
  if resistors.length < 2 then
    { result with errors := result.errors ++ ["Voltage divider requires at least 2 resistors"] }
  else
    let r1 := resistors.getD 0 default
    let r2 := resistors.getD 1 default
    let result :=
      if p.enableGainCalculation ∧ jsTruthyStr r1.value ∧ jsTruthyStr r2.value then
        { result with
          gain := some (calculateVoltageDividerGain (r1.value.getD []) (r2.value.getD [])) }
      else result
    let completeness := calculateCompleteness result
    { result with
      completeness := completeness,
      isValid := decide (p.analysisConfidenceThreshold ≤ completeness) }

/-- `analyzeGenericCircuit`: completeness is component count over five. -/
def analyzeGenericCircuit (components : List DetectedComponent)
    (result : CircuitAnalysisResult) : CircuitAnalysisResult :=
  let completeness := (components.length : ℚ) / 5
  { result with completeness := completeness, isValid := decide ((0.5 : ℚ) ≤ completeness) }

/-- `analyzeCircuitTopology`: build the base result, detect the type and
dispatch to the per-type analyzer. -/
def analyzeCircuitTopology (p : AnalyzerParams) (components : List DetectedComponent) :
    CircuitAnalysisResult :=
  let result : CircuitAnalysisResult :=
    { circuitType := CircuitType.unknown, components := components, connections := [],
      completeness := 0, missingComponents := [], errors := [], isValid := false, gain := none }
  let result := { result with circuitType := detectCircuitType components }
  match result.circuitType with
  | CircuitType.nonInvertingOpAmp => analyzeNonInvertingOpAmp p components result
  | CircuitType.invertingOpAmp => analyzeInvertingOpAmp p components result
  | CircuitType.voltageDivider => analyzeVoltageDivider p components result
  | _ => analyzeGenericCircuit components result

/-- A copy of the `analyzeCircuitTopology` dispatch in which the
`InvertingOpAmp` branch has been replaced by the default branch; agreement
with `analyzeCircuitTopology` on all inputs shows the branch is dead code. -/
def analyzeCircuitTopologyNoInverting (p : AnalyzerParams)
    (components : List DetectedComponent) : CircuitAnalysisResult :=
  let result : CircuitAnalysisResult :=
    { circuitType := CircuitType.unknown, components := components, connections := [],
      completeness := 0, missingComponents := [], errors := [], isValid := false, gain := none }
  let result := { result with circuitType := detectCircuitType components }
  match result.circuitType with
  | CircuitType.nonInvertingOpAmp => analyzeNonInvertingOpAmp p components result
  | CircuitType.voltageDivider => analyzeVoltageDivider p components result
  | _ => analyzeGenericCircuit components result

end CircuitTopologyAnalyzer

/-- The host `vec3` value type. -/
@[ext]
structure Vec3 where
  x : ℚ
  y : ℚ
  z : ℚ
deriving DecidableEq, Repr

/-- `DepthInfo` interface from `BreadboardDepthMapper`. -/
structure DepthInfo where
  depth : ℚ
  confidence : ℚ
  isValid : Bool
deriving DecidableEq, Repr

/-- `PositioningResult` interface from `BreadboardDepthMapper`. -/
structure PositioningResult where
  worldPosition : Vec3
  confidence : ℚ
  depthInfo : Option DepthInfo
  fallbackUsed : Bool
deriving DecidableEq, Repr

/-- `BreadboardCalibration` interface; the `rotation` quaternion is carried by
the class but never read by the modelled computations and is omitted. -/
structure BreadboardCalibration where
  centerPosition : Vec3
  width : ℚ
  height : ℚ
  isCalibrated : Bool
deriving DecidableEq, Repr

namespace BreadboardDepthMapper

/-- The `@input` fields of `BreadboardDepthMapper` read by the modelled
methods. -/
structure MapperParams where
  depthConfidenceThreshold : ℚ
  breadboardWidth : ℚ
  breadboardHeight : ℚ
  fallbackDistance : ℚ
  enablePositionSmoothing : Bool
  smoothingFactor : ℚ

/-- The `maxHistorySize` field, fixed at 10. -/
def maxHistorySize : ℕ := 10

/-- Outcome of a `depthSystem.getDepthAtScreenPosition` call: an exception
(caught by the `try`), a falsy result, or a depth reading. -/
inductive DepthQueryResult
  | throws
  | missing
  | reading (depth : ℚ) (confidence : ℚ)

/-- Mutable state of the component.  `positionHistory` is a JS `Map` keyed by
the string  `breadboardX + underscore + breadboardY`; since JS number strings
never contain an underscore the key is injective on coordinate pairs, and the
map is modelled as a total function on pairs defaulting to `[]` (the code
inserts `[]` on first access). `hasDepthSystem` models `depthSystem !== null`. -/
structure MapperState where
  positionHistory : ℚ × ℚ → List Vec3
  calibrationData : BreadboardCalibration
  isDepthAPIEnabled : Bool
  hasDepthSystem : Bool

/-- Body of the `for` loop of `applyPositionSmoothing`: accumulate the
weighted component sums and the total weight for index `i`. -/
def smoothStep (smoothingFactor : ℚ) (history : List Vec3) (acc : Vec3 × ℚ) (i : ℕ) :
    Vec3 × ℚ :=
  let weight := smoothingFactor ^ (history.length - 1 - i)
  let p := history.getD i ⟨0, 0, 0⟩
  (⟨acc.1.x + p.x * weight, acc.1.y + p.y * weight, acc.1.z + p.z * weight⟩, acc.2 + weight)

/-- The `for` loop of `applyPositionSmoothing` over `i = 0 .. history.length-1`,
starting from `vec3.zero()` and `totalWeight = 0`. -/
def smoothLoop (smoothingFactor : ℚ) (history : List Vec3) : Vec3 × ℚ :=
  (List.range history.length).foldl (smoothStep smoothingFactor history) (⟨0, 0, 0⟩, 0)

/-- `applyPositionSmoothing` on one key's history: push the new position,
`shift` when the history exceeds `maxHistorySize`, then return the new
position itself for a single-entry history and otherwise the exponentially
weighted average.  Returns the stored history together with the smoothed
position. -/
def applyPositionSmoothing (smoothingFactor : ℚ) (history : List Vec3) (newPosition : Vec3) :
    List Vec3 × Vec3 :=
  let history := history ++ [newPosition]
  let history := if maxHistorySize < history.length then history.tail else history
  if history.length = 1 then (history, newPosition)
  else
    let s := (smoothLoop smoothingFactor history).1
    let totalWeight := (smoothLoop smoothingFactor history).2
    (history, ⟨s.x / totalWeight, s.y / totalWeight, s.z / totalWeight⟩)

/-- The history list `applyPositionSmoothing` leaves stored for the key (after
the push and the size trim); named so its postconditions can be stated. -/
def storedHistory (history : List Vec3) (newPosition : Vec3) : List Vec3 :=
  let history := history ++ [newPosition]
  if maxHistorySize < history.length then history.tail else history

/-- `calculateWorldPositionFromDepth`. -/
def calculateWorldPositionFromDepth (calibrationData : BreadboardCalibration)
    (normalizedX normalizedY depth : ℚ) : Vec3 :=
  ⟨normalizedX * calibrationData.width * 0.5, normalizedY * calibrationData.height * 0.5, depth⟩

/-- `calculateFallbackPosition`. -/
def calculateFallbackPosition (p : MapperParams) (calibrationData : BreadboardCalibration)
    (normalizedX normalizedY : ℚ) : Vec3 :=
  let distance :=
    if calibrationData.isCalibrated then calibrationData.centerPosition.z else p.fallbackDistance
  ⟨normalizedX * p.breadboardWidth * 0.5, normalizedY * p.breadboardHeight * 0.5, distance⟩

/-- The screen coordinate computed in `mapBreadboardToWorldPosition`:
`normalized = (b - 500) / 500` followed by `screen = normalized * 0.5 + 0.5`. -/
def screenCoordOf (b : ℚ) : ℚ :=
  (b - 500) / 500 * 0.5 + 0.5

/-- The branch of `mapBreadboardToWorldPosition` that assigns `worldPosition`,
`confidence`, `depthInfo` and `fallbackUsed` from the depth query (or the
fallback), bundled as a tuple. -/
def depthBranch (p : MapperParams) (oracle : ℚ → ℚ → DepthQueryResult) (st : MapperState)
    (normalizedX normalizedY screenX screenY : ℚ) : Vec3 × ℚ × Option DepthInfo × Bool :=
  if st.isDepthAPIEnabled ∧ st.hasDepthSystem then
    match oracle screenX screenY with
    | DepthQueryResult.throws =>
      (calculateFallbackPosition p st.calibrationData normalizedX normalizedY, (0.3 : ℚ),
        (none : Option DepthInfo), true)
    | DepthQueryResult.missing =>
      (calculateFallbackPosition p st.calibrationData normalizedX normalizedY, (0.5 : ℚ),
        some ⟨p.fallbackDistance, 0.3, false⟩, true)
    | DepthQueryResult.reading depth conf =>
      if 0 < depth ∧ p.depthConfidenceThreshold ≤ conf then
        (calculateWorldPositionFromDepth st.calibrationData normalizedX normalizedY depth,
          conf, some ⟨depth, conf, true⟩, false)
      else
        (calculateFallbackPosition p st.calibrationData normalizedX normalizedY, (0.5 : ℚ),
          some ⟨p.fallbackDistance, 0.3, false⟩, true)
  else
    (calculateFallbackPosition p st.calibrationData normalizedX normalizedY, (0.4 : ℚ),
      (none : Option DepthInfo), true)

/-- `mapBreadboardToWorldPosition`.  The depth system is an oracle parameter
answering the single `getDepthAtScreenPosition(screenX, screenY)` query the
method can make; the updated state and the returned `PositioningResult` are
both produced. -/
def mapBreadboardToWorldPosition (p : MapperParams) (oracle : ℚ → ℚ → DepthQueryResult)
    (st : MapperState) (breadboardX breadboardY : ℚ) : MapperState × PositioningResult :=
  let normalizedX := (breadboardX - 500) / 500
  let normalizedY := (breadboardY - 500) / 500
  let screenX := screenCoordOf breadboardX
  let screenY := screenCoordOf breadboardY
  let branch := depthBranch p oracle st normalizedX normalizedY screenX screenY
  let worldPosition := branch.1
  let confidence := branch.2.1
  let depthInfo := branch.2.2.1
  let fallbackUsed := branch.2.2.2
  let smoothed :=
    if p.enablePositionSmoothing then
      let key := (breadboardX, breadboardY)
      let pair :=
        applyPositionSmoothing p.smoothingFactor (st.positionHistory key) worldPosition
      ({ st with
          positionHistory := fun k => if k = key then pair.1 else st.positionHistory k },
        pair.2)
    else (st, worldPosition)
  (smoothed.1, ⟨smoothed.2, confidence, depthInfo, fallbackUsed⟩)

/-- `clearPositionHistory`. -/
def clearPositionHistory (st : MapperState) : MapperState :=
  { st with positionHistory := fun _ => [] }

/-- One call to `mapBreadboardToWorldPosition`: its coordinates together with
the depth system's response to the query the call can make. -/
structure MapperCall where
  oracle : ℚ → ℚ → DepthQueryResult
  breadboardX : ℚ
  breadboardY : ℚ

/-- Component state right after `initializeCalibration` (`onAwake`): empty
history and uncalibrated default calibration; the depth-API flags are set by
the host environment and are arbitrary parameters. -/
def initialMapperState (p : MapperParams) (calibrationDistance : ℚ)
    (apiEnabled hasSystem : Bool) : MapperState :=
  { positionHistory := fun _ => [],
    calibrationData :=
      ⟨⟨0, 0, calibrationDistance⟩, p.breadboardWidth, p.breadboardHeight, false⟩,
    isDepthAPIEnabled := apiEnabled,
    hasDepthSystem := hasSystem }

/-- Run a sequence of `mapBreadboardToWorldPosition` calls, threading the
state. -/
def runCalls (p : MapperParams) (st : MapperState) (calls : List MapperCall) : MapperState :=
  calls.foldl
    (fun st c => (mapBreadboardToWorldPosition p c.oracle st c.breadboardX c.breadboardY).1)
    st

/-- The weighted average exactly as the spec sentence for C5 states it:
componentwise `(sum of w_i * p_i) / (sum of w_i)` with exponential weights
`w_i = smoothingFactor ^ (n - 1 - i)` over the stored history `p_0 .. p_(n-1)`
(oldest first). -/
def specWeightedAverage (smoothingFactor : ℚ) (h : List Vec3) : Vec3 :=
  let n := h.length
  let totalWeight := ∑ i ∈ Finset.range n, smoothingFactor ^ (n - 1 - i)
  ⟨(∑ i ∈ Finset.range n, smoothingFactor ^ (n - 1 - i) * (h.getD i ⟨0, 0, 0⟩).x) / totalWeight,
   (∑ i ∈ Finset.range n, smoothingFactor ^ (n - 1 - i) * (h.getD i ⟨0, 0, 0⟩).y) / totalWeight,
   (∑ i ∈ Finset.range n, smoothingFactor ^ (n - 1 - i) * (h.getD i ⟨0, 0, 0⟩).z) / totalWeight⟩

end BreadboardDepthMapper

namespace BreadboardAROverlay

/-- `OverlayType` enum. -/
inductive OverlayType
  | holeHighlight
  | componentPlacement
  | connectionLine
  | circuitPath
  | componentLabel
deriving DecidableEq, Repr

/-- The host `vec4` color value. -/
structure Vec4 where
  x : ℚ
  y : ℚ
  z : ℚ
  w : ℚ
deriving DecidableEq, Repr

/-- `HighlightConfig` interface. -/
structure HighlightConfig where
  color : Vec4
  size : ℚ
  pulseSpeed : ℚ
  duration : ℚ
  fadeInDuration : ℚ
  fadeOutDuration : ℚ
deriving DecidableEq, Repr

/-- `AROverlayElement` interface.  The optional host `SceneObject` and
`Material` references carry no modelled data and are represented by presence
flags (`createDefaultMaterial` returns `null`, so a missing input material
leaves `hasMaterial = false`). -/
structure AROverlayElement where
  id : String
  type : OverlayType
  position : Vec3
  rotation : Vec4
  scale : Vec3
  config : HighlightConfig
  isVisible : Bool
  hasSceneObject : Bool
  hasMaterial : Bool
deriving DecidableEq, Repr

/-- JS `Map.get` on the insertion-ordered association list. -/
def mapGet (m : List (String × AROverlayElement)) (k : String) : Option AROverlayElement :=
  (m.find? (fun e => decide (e.1 = k))).map (fun e => e.2)

/-- JS `Map.set`: update in place when the key exists (keeping insertion
order), append otherwise. -/
def mapSet (m : List (String × AROverlayElement)) (k : String) (v : AROverlayElement) :
    List (String × AROverlayElement) :=
  if (m.find? (fun e => decide (e.1 = k))).isSome then
    m.map (fun e => if e.1 = k then (k, v) else e)
  else m ++ [(k, v)]

/-- JS `Map.delete` (dropping the entry). -/
def mapDelete (m : List (String × AROverlayElement)) (k : String) :
    List (String × AROverlayElement) :=
  m.filter (fun e => decide (¬ e.1 = k))

/-- The `@input` fields of `BreadboardAROverlay` read by the modelled methods;
the material and mesh inputs appear as presence flags. -/
structure OverlaySettings where
  highlightSize : ℚ
  highlightPulseSpeed : ℚ
  labelOffset : ℚ
  highlightMethod : String
  hasHighlightMaterial : Bool
  hasOutlineMaterial : Bool
  hasFresnelMaterial : Bool

/-- `colorPresets` map. -/
def colorPresets (name : String) : Option Vec4 :=
  if name = "placement" then some ⟨0, 1, 0, 0.8⟩
  else if name = "connection" then some ⟨0, 0, 1, 0.6⟩
  else if name = "warning" then some ⟨1, 0, 0, 0.8⟩
  else if name = "info" then some ⟨1, 1, 0, 0.7⟩
  else if name = "circuit" then some ⟨1, 0.5, 0, 0.6⟩
  else none

/-- `this.colorPresets.get(color) || this.colorPresets.get("placement")!`. -/
def colorOrPlacement (color : String) : Vec4 :=
  (colorPresets color).getD ((colorPresets "placement").getD ⟨0, 0, 0, 0⟩)

/-- Mutable overlay state, together with the event logs: `created` records the
overlay ids whose elements were passed to `overlayCreatedEvent.invoke`,
`removed` the ids passed to `overlayRemovedEvent.invoke`. -/
structure OverlayState where
  activeOverlays : List (String × AROverlayElement)
  overlayCounter : ℕ
  created : List String
  removed : List String
deriving DecidableEq, Repr

/-- `createInvertedHullHighlight`: store and announce the hole-highlight
overlay (scene-object and tween plumbing is host-side). -/
def createInvertedHullHighlight (s : OverlaySettings) (st : OverlayState) (overlayId : String)
    (worldPos : Vec3) (color : String) (duration : ℚ) : OverlayState × String :=
  let colorVec := colorOrPlacement color
  let overlay : AROverlayElement :=
    { id := overlayId, type := OverlayType.holeHighlight, position := worldPos,
      rotation := ⟨0, 0, 0, 1⟩,
      scale := ⟨s.highlightSize, s.highlightSize, s.highlightSize⟩,
      config :=
        { color := colorVec, size := s.highlightSize, pulseSpeed := s.highlightPulseSpeed,
          duration := duration, fadeInDuration := 500, fadeOutDuration := 500 },
      isVisible := true, hasSceneObject := true, hasMaterial := s.hasHighlightMaterial }
  ({ st with
      activeOverlays := mapSet st.activeOverlays overlayId overlay,
      created := st.created ++ [overlayId] }, overlayId)

/-- `createFresnelGlowHighlight`; its material comes from `fresnelMaterial`. -/
def createFresnelGlowHighlight (s : OverlaySettings) (st : OverlayState) (overlayId : String)
    (worldPos : Vec3) (color : String) (duration : ℚ) : OverlayState × String :=
  let colorVec := colorOrPlacement color
  let overlay : AROverlayElement :=
    { id := overlayId, type := OverlayType.holeHighlight, position := worldPos,
      rotation := ⟨0, 0, 0, 1⟩,
      scale := ⟨s.highlightSize, s.highlightSize, s.highlightSize⟩,
      config :=
        { color := colorVec, size := s.highlightSize, pulseSpeed := s.highlightPulseSpeed,
          duration := duration, fadeInDuration := 500, fadeOutDuration := 500 },
      isVisible := true, hasSceneObject := true, hasMaterial := s.hasFresnelMaterial }
  ({ st with
      activeOverlays := mapSet st.activeOverlays overlayId overlay,
      created := st.created ++ [overlayId] }, overlayId)

/-- `createSimpleHighlight`; its material comes from `highlightMaterial`. -/
def createSimpleHighlight (s : OverlaySettings) (st : OverlayState) (overlayId : String)
    (worldPos : Vec3) (color : String) (duration : ℚ) : OverlayState × String :=
  let colorVec := colorOrPlacement color
  let overlay : AROverlayElement :=
    { id := overlayId, type := OverlayType.holeHighlight, position := worldPos,
      rotation := ⟨0, 0, 0, 1⟩,
      scale := ⟨s.highlightSize, s.highlightSize, s.highlightSize⟩,
      config :=
        { color := colorVec, size := s.highlightSize, pulseSpeed := s.highlightPulseSpeed,
          duration := duration, fadeInDuration := 500, fadeOutDuration := 500 },
      isVisible := true, hasSceneObject := true, hasMaterial := s.hasHighlightMaterial }
  ({ st with
      activeOverlays := mapSet st.activeOverlays overlayId overlay,
      created := st.created ++ [overlayId] }, overlayId)

/-- `highlightBreadboardHole`: allocate the `hole_<n>` id, compute the world
position (the depth-dependent `breadboardToWorldPosition` is the
`worldPosOf` oracle) and dispatch on `highlightMethod` (default: simple). -/
def highlightBreadboardHole (s : OverlaySettings) (worldPosOf : ℚ → ℚ → Vec3)
    (st : OverlayState) (breadboardX breadboardY : ℚ) (color : String) (duration : ℚ) :
    OverlayState × String :=
  let overlayId := "hole_" ++ toString st.overlayCounter
  let st := { st with overlayCounter := st.overlayCounter + 1 }
  let worldPos := worldPosOf breadboardX breadboardY
  if s.highlightMethod = "inverted_hull" then
    createInvertedHullHighlight s st overlayId worldPos color duration
  else if s.highlightMethod = "fresnel_glow" then
    createFresnelGlowHighlight s st overlayId worldPos color duration
  else
    createSimpleHighlight s st overlayId worldPos color duration

/-- `showComponentLabel`: allocate the `label_<n>` id and store the text-label
overlay (no material is attached to labels). -/
def showComponentLabel (s : OverlaySettings) (worldPosOf : ℚ → ℚ → Vec3) (st : OverlayState)
    (component : DetectedComponent) (targetHole : Option BreadboardHole) : OverlayState :=
  let position :=
    match targetHole with
    | some hole => worldPosOf hole.x hole.y
    | none => worldPosOf component.posX component.posY
  let labelPos : Vec3 := ⟨position.x, position.y + s.labelOffset, position.z⟩
  let overlayId := "label_" ++ toString st.overlayCounter
  let st := { st with overlayCounter := st.overlayCounter + 1 }
  let overlay : AROverlayElement :=
    { id := overlayId, type := OverlayType.componentLabel, position := labelPos,
      rotation := ⟨0, 0, 0, 1⟩, scale := ⟨1, 1, 1⟩,
      config :=
        { color := ⟨1, 1, 1, 0.9⟩, size := 0.02, pulseSpeed := 0, duration := 10000,
          fadeInDuration := 500, fadeOutDuration := 500 },
      isVisible := true, hasSceneObject := true, hasMaterial := false }
  { st with
      activeOverlays := mapSet st.activeOverlays overlayId overlay,
      created := st.created ++ [overlayId] }

/-- The color name `placement`. -/
def placementColor : String := "placement"

/-- `showPlacementGuidance`: highlight the target hole (color `placement`,
duration 8000) and add the component label. -/
def showPlacementGuidance (s : OverlaySettings) (worldPosOf : ℚ → ℚ → Vec3) (st : OverlayState)
    (component : DetectedComponent) (targetHole : BreadboardHole) : OverlayState :=
  let st :=
    (highlightBreadboardHole s worldPosOf st targetHole.x targetHole.y placementColor 8000).1
  showComponentLabel s worldPosOf st component (some targetHole)

/-- `showPlacementSequence`: bail out when the arrays differ in length, else
show placement guidance for each component/hole pair in order. -/
def showPlacementSequence (s : OverlaySettings) (worldPosOf : ℚ → ℚ → Vec3) (st : OverlayState)
    (components : List DetectedComponent) (targetHoles : List BreadboardHole) : OverlayState :=
  if components.length ≠ targetHoles.length then st
  else
    (components.zip targetHoles).foldl
      (fun st ct => showPlacementGuidance s worldPosOf st ct.1 ct.2) st

/-- `removeOverlay`.  The fade-out tween of the material branch is modelled as
running to completion, so its `onComplete` callback (which deletes the entry
and fires `overlayRemovedEvent`) takes effect; the no-material branch deletes
immediately. -/
def removeOverlay (st : OverlayState) (overlayId : String) : OverlayState × Bool :=
  match mapGet st.activeOverlays overlayId with
  | none => (st, false)
  | some overlay =>
    let overlay := { overlay with isVisible := false }
    let st := { st with activeOverlays := mapSet st.activeOverlays overlayId overlay }
    if overlay.hasMaterial then
      ({ st with
          activeOverlays := mapDelete st.activeOverlays overlayId,
          removed := st.removed ++ [overlayId] }, true)
    else
      ({ st with
          activeOverlays := mapDelete st.activeOverlays overlayId,
          removed := st.removed ++ [overlayId] }, true)

end BreadboardAROverlay

end Relay

namespace Relay.CircuitTopologyAnalyzer

/-- Claim C1: `detectCircuitType` depends only on the number of resistors and
the number of op amps: at least 2 resistors and at least 1 op amp give
`NonInvertingOpAmp`, at least 2 resistors and exactly 0 op amps give
`VoltageDivider`, everything else gives `Unknown`; hence any two component
lists with equal resistor and op-amp counts classify identically. -/
theorem detectCircuitType_by_counts :
    (∀ components : List DetectedComponent,
      detectCircuitType components =
        if 2 ≤ (resistorsOf components).length ∧ 1 ≤ (opAmpsOf components).length then
          CircuitType.nonInvertingOpAmp
        else if 2 ≤ (resistorsOf components).length ∧ (opAmpsOf components).length = 0 then
          CircuitType.voltageDivider
        else CircuitType.unknown) ∧
    (∀ c1 c2 : List DetectedComponent,
      (resistorsOf c1).length = (resistorsOf c2).length →
      (opAmpsOf c1).length = (opAmpsOf c2).length →
      detectCircuitType c1 = detectCircuitType c2) := by
  have h : ∀ components : List DetectedComponent,
      detectCircuitType components =
        if 2 ≤ (resistorsOf components).length ∧ 1 ≤ (opAmpsOf components).length then
          CircuitType.nonInvertingOpAmp
        else if 2 ≤ (resistorsOf components).length ∧ (opAmpsOf components).length = 0 then
          CircuitType.voltageDivider
        else CircuitType.unknown := by
    intro components
    unfold detectCircuitType
    by_cases h1 : 2 ≤ (resistorsOf components).length ∧ 1 ≤ (opAmpsOf components).length
    · simp [h1]
    · simp [h1]
  refine ⟨h, fun c1 c2 hr ho => ?_⟩
  rw [h c1, h c2, hr, ho]

/-- Witness for C1 at two concrete component lists with counts (2, 1). -/
theorem detectCircuitType_by_counts_witness :
    detectCircuitType
        [⟨ComponentType.resistor, 0, 0, 1, none⟩, ⟨ComponentType.opAmp, 0, 0, 1, none⟩,
          ⟨ComponentType.resistor, 0, 0, 1, none⟩] =
      detectCircuitType
        [⟨ComponentType.resistor, 1, 2, 1, none⟩, ⟨ComponentType.resistor, 3, 4, 1, none⟩,
          ⟨ComponentType.opAmp, 5, 6, 1, none⟩] :=
  detectCircuitType_by_counts.2 _ _ (by decide) (by decide)

/-- Claim C2: `calculateNonInvertingGain` returns `1 + r2/r1` exactly when both
resistor strings parse to positive values, and the default gain `1` for every
other parse outcome. -/
theorem calculateNonInvertingGain_spec (s1 s2 : List Char) :
    (∀ r1 r2 : ℚ, parseResistorValue s1 = some r1 → parseResistorValue s2 = some r2 →
      0 < r1 → 0 < r2 → calculateNonInvertingGain s1 s2 = 1 + r2 / r1) ∧
    ((¬ ∃ r1 r2 : ℚ, parseResistorValue s1 = some r1 ∧ parseResistorValue s2 = some r2 ∧
        0 < r1 ∧ 0 < r2) → calculateNonInvertingGain s1 s2 = 1) := by
  constructor
  · intro r1 r2 h1 h2 hr1 hr2
    unfold calculateNonInvertingGain
    rw [h1, h2]
    simp [hr1, hr2]
  · intro hne
    unfold calculateNonInvertingGain
    cases hp1 : parseResistorValue s1 with
    | none => rfl
    | some r1 =>
      cases hp2 : parseResistorValue s2 with
      | none => rfl
      | some r2 =>
        have hc : ¬ (0 < r1 ∧ 0 < r2) := fun hc => hne ⟨r1, r2, hp1, hp2, hc.1, hc.2⟩
        simp [hc]

/-- Witness for C2: R1 = 1k, R2 = 2k gives gain 1 + 2000/1000 = 3. -/
theorem calculateNonInvertingGain_spec_witness :
    calculateNonInvertingGain ['1', 'k'] ['2', 'k'] = 3 := by
  have hj1 : jsToLower '1' = '1' := by decide
  have hj2 : jsToLower '2' = '2' := by decide
  have hjk : jsToLower 'k' = 'k' := by decide
  have hp1 : parseResistorValue ['1', 'k'] = some 1000 := by
    have hs : parseFloatScaled (removeFirst 'k' ['1', 'k']) = some (1, 0) := by decide
    simp +decide [parseResistorValue, parseFloat, hj1, hjk, hs]
  have hp2 : parseResistorValue ['2', 'k'] = some 2000 := by
    have hs : parseFloatScaled (removeFirst 'k' ['2', 'k']) = some (2, 0) := by decide
    simp +decide [parseResistorValue, parseFloat, hj2, hjk, hs]
    norm_num
  have := (calculateNonInvertingGain_spec ['1', 'k'] ['2', 'k']).1 1000 2000 hp1 hp2
    (by norm_num) (by norm_num)
  rw [this]
  norm_num

/-- Claim C3: `calculateInvertingGain` returns `-(r2/r1)` exactly when both
resistor strings parse to positive values, and the default gain `-1` for every
other parse outcome. -/
theorem calculateInvertingGain_spec (s1 s2 : List Char) :
    (∀ r1 r2 : ℚ, parseResistorValue s1 = some r1 → parseResistorValue s2 = some r2 →
      0 < r1 → 0 < r2 → calculateInvertingGain s1 s2 = -(r2 / r1)) ∧
    ((¬ ∃ r1 r2 : ℚ, parseResistorValue s1 = some r1 ∧ parseResistorValue s2 = some r2 ∧
        0 < r1 ∧ 0 < r2) → calculateInvertingGain s1 s2 = -1) := by
  constructor
  · intro r1 r2 h1 h2 hr1 hr2
    unfold calculateInvertingGain
    rw [h1, h2]
    simp [hr1, hr2]
  · intro hne
    unfold calculateInvertingGain
    cases hp1 : parseResistorValue s1 with
    | none => rfl
    | some r1 =>
      cases hp2 : parseResistorValue s2 with
      | none => rfl
      | some r2 =>
        have hc : ¬ (0 < r1 ∧ 0 < r2) := fun hc => hne ⟨r1, r2, hp1, hp2, hc.1, hc.2⟩
        simp [hc]

/-- Witness for C3: R1 = 1k, R2 = 2k gives gain -(2000/1000) = -2. -/
theorem calculateInvertingGain_spec_witness :
    calculateInvertingGain ['1', 'k'] ['2', 'k'] = -2 := by
  have hj1 : jsToLower '1' = '1' := by decide
  have hj2 : jsToLower '2' = '2' := by decide
  have hjk : jsToLower 'k' = 'k' := by decide
  have hp1 : parseResistorValue ['1', 'k'] = some 1000 := by
    have hs : parseFloatScaled (removeFirst 'k' ['1', 'k']) = some (1, 0) := by decide
    simp +decide [parseResistorValue, parseFloat, hj1, hjk, hs]
  have hp2 : parseResistorValue ['2', 'k'] = some 2000 := by
    have hs : parseFloatScaled (removeFirst 'k' ['2', 'k']) = some (2, 0) := by decide
    simp +decide [parseResistorValue, parseFloat, hj2, hjk, hs]
    norm_num
  have := (calculateInvertingGain_spec ['1', 'k'] ['2', 'k']).1 1000 2000 hp1 hp2
    (by norm_num) (by norm_num)
  rw [this]
  norm_num

/-- Claim C4: `calculateVoltageDividerGain` returns `r2/(r1 + r2)` exactly when
both resistor strings parse to positive values, and the default gain `0.5` for
every other parse outcome. -/
theorem calculateVoltageDividerGain_spec (s1 s2 : List Char) :
    (∀ r1 r2 : ℚ, parseResistorValue s1 = some r1 → parseResistorValue s2 = some r2 →
      0 < r1 → 0 < r2 → calculateVoltageDividerGain s1 s2 = r2 / (r1 + r2)) ∧
    ((¬ ∃ r1 r2 : ℚ, parseResistorValue s1 = some r1 ∧ parseResistorValue s2 = some r2 ∧
        0 < r1 ∧ 0 < r2) → calculateVoltageDividerGain s1 s2 = 0.5) := by
  constructor
  · intro r1 r2 h1 h2 hr1 hr2
    unfold calculateVoltageDividerGain
    rw [h1, h2]
    simp [hr1, hr2]
  · intro hne
    unfold calculateVoltageDividerGain
    cases hp1 : parseResistorValue s1 with
    | none => rfl
    | some r1 =>
      cases hp2 : parseResistorValue s2 with
      | none => rfl
      | some r2 =>
        have hc : ¬ (0 < r1 ∧ 0 < r2) := fun hc => hne ⟨r1, r2, hp1, hp2, hc.1, hc.2⟩
        simp [hc]

/-- Claim C6: `detectCircuitType` never returns `InvertingOpAmp` (the branch is
guarded by the same condition as the earlier `NonInvertingOpAmp` branch and is
unreachable), and consequently `analyzeCircuitTopology` agrees everywhere with
the dispatch from which the `InvertingOpAmp` case has been removed. -/
theorem detectCircuitType_never_inverting :
    (∀ components : List DetectedComponent,
      detectCircuitType components ≠ CircuitType.invertingOpAmp) ∧
    (∀ (p : AnalyzerParams) (components : List DetectedComponent),
      analyzeCircuitTopology p components = analyzeCircuitTopologyNoInverting p components) := by
  have h : ∀ components : List DetectedComponent,
      detectCircuitType components ≠ CircuitType.invertingOpAmp := by
    intro components
    unfold detectCircuitType
    simp only []
    split_ifs <;> decide
  refine ⟨h, fun p components => ?_⟩
  unfold analyzeCircuitTopology analyzeCircuitTopologyNoInverting
  cases hd : detectCircuitType components with
  | nonInvertingOpAmp => rfl
  | invertingOpAmp => exact absurd hd (h components)
  | voltageDivider => rfl
  | lowPassFilter => rfl
  | highPassFilter => rfl
  | unknown => rfl

/-- Witness for C6 at a concrete parameter record and component list. -/
theorem detectCircuitType_never_inverting_witness :
    analyzeCircuitTopology ⟨true, 0.7⟩ [] = analyzeCircuitTopologyNoInverting ⟨true, 0.7⟩ [] :=
  detectCircuitType_never_inverting.2 ⟨true, 0.7⟩ []

/-- Witness for C4: R1 = 1k, R2 = 3k gives gain 3000/4000 = 3/4. -/
theorem calculateVoltageDividerGain_spec_witness :
    calculateVoltageDividerGain ['1', 'k'] ['3', 'k'] = 3 / 4 := by
  have hj1 : jsToLower '1' = '1' := by decide
  have hj3 : jsToLower '3' = '3' := by decide
  have hjk : jsToLower 'k' = 'k' := by decide
  have hp1 : parseResistorValue ['1', 'k'] = some 1000 := by
    have hs : parseFloatScaled (removeFirst 'k' ['1', 'k']) = some (1, 0) := by decide
    simp +decide [parseResistorValue, parseFloat, hj1, hjk, hs]
  have hp2 : parseResistorValue ['3', 'k'] = some 3000 := by
    have hs : parseFloatScaled (removeFirst 'k' ['3', 'k']) = some (3, 0) := by decide
    simp +decide [parseResistorValue, parseFloat, hj3, hjk, hs]
    norm_num
  have := (calculateVoltageDividerGain_spec ['1', 'k'] ['3', 'k']).1 1000 3000 hp1 hp2
    (by norm_num) (by norm_num)
  rw [this]
  norm_num

end Relay.CircuitTopologyAnalyzer

namespace Relay.BreadboardDepthMapper

open Relay

lemma smoothLoop_aux (f : ℚ) (h : List Vec3) (n : ℕ) (a : Vec3 × ℚ) :
    (List.range n).foldl (smoothStep f h) a =
      (⟨a.1.x + ∑ i ∈ Finset.range n, (h.getD i ⟨0, 0, 0⟩).x * f ^ (h.length - 1 - i),
        a.1.y + ∑ i ∈ Finset.range n, (h.getD i ⟨0, 0, 0⟩).y * f ^ (h.length - 1 - i),
        a.1.z + ∑ i ∈ Finset.range n, (h.getD i ⟨0, 0, 0⟩).z * f ^ (h.length - 1 - i)⟩,
       a.2 + ∑ i ∈ Finset.range n, f ^ (h.length - 1 - i)) := by
  induction n generalizing a with
  | zero => simp
  | succ n ih =>
    rw [List.range_succ, List.foldl_append, ih]
    simp only [List.foldl_cons, List.foldl_nil, smoothStep, Finset.sum_range_succ]
    refine Prod.ext ?_ ?_
    · exact Vec3.ext (by ring) (by ring) (by ring)
    · show _ = _
      ring

lemma smoothLoop_eq (f : ℚ) (h : List Vec3) :
    smoothLoop f h =
      (⟨∑ i ∈ Finset.range h.length, (h.getD i ⟨0, 0, 0⟩).x * f ^ (h.length - 1 - i),
        ∑ i ∈ Finset.range h.length, (h.getD i ⟨0, 0, 0⟩).y * f ^ (h.length - 1 - i),
        ∑ i ∈ Finset.range h.length, (h.getD i ⟨0, 0, 0⟩).z * f ^ (h.length - 1 - i)⟩,
       ∑ i ∈ Finset.range h.length, f ^ (h.length - 1 - i)) := by
  unfold smoothLoop
  rw [smoothLoop_aux]
  simp

lemma smoothLoop_avg (f : ℚ) (g : List Vec3) :
    (⟨(smoothLoop f g).1.x / (smoothLoop f g).2, (smoothLoop f g).1.y / (smoothLoop f g).2,
      (smoothLoop f g).1.z / (smoothLoop f g).2⟩ : Vec3) = specWeightedAverage f g := by
  rw [smoothLoop_eq]
  unfold specWeightedAverage
  refine Vec3.ext ?_ ?_ ?_ <;>
  · simp only
    congr 1
    exact Finset.sum_congr rfl fun i _ => mul_comm _ _

lemma applyPositionSmoothing_eq (f : ℚ) (history : List Vec3) (newPosition : Vec3) :
    applyPositionSmoothing f history newPosition =
      (storedHistory history newPosition,
        if (storedHistory history newPosition).length = 1 then newPosition
        else specWeightedAverage f (storedHistory history newPosition)) := by
  unfold applyPositionSmoothing storedHistory
  simp only []
  split_ifs <;> first | rfl | rw [← smoothLoop_avg]

/-- Claim C5: on each key, `applyPositionSmoothing` stores the appended (and
trimmed) history; when that history holds a single position it returns the new
position unchanged, and when it holds at least two it returns, componentwise,
the exponentially weighted average `(sum of w_i * p_i) / (sum of w_i)` with
`w_i = smoothingFactor ^ (n - 1 - i)` over the stored positions `p_0 .. p_(n-1)`
(oldest first). -/
theorem applyPositionSmoothing_weighted_average (f : ℚ) (history : List Vec3)
    (newPosition : Vec3) :
    ((applyPositionSmoothing f history newPosition).1.length = 1 →
      (applyPositionSmoothing f history newPosition).2 = newPosition) ∧
    (2 ≤ (applyPositionSmoothing f history newPosition).1.length →
      (applyPositionSmoothing f history newPosition).2 =
        specWeightedAverage f (applyPositionSmoothing f history newPosition).1) := by
  rw [applyPositionSmoothing_eq]
  constructor
  · intro h1
    simp only at h1 ⊢
    simp [h1]
  · intro h2
    simp only at h2 ⊢
    have hne : ¬ (storedHistory history newPosition).length = 1 := by omega
    simp [hne]

/-- Witness for C5: a first call stores a one-entry history and returns the
new position unchanged. -/
theorem applyPositionSmoothing_weighted_average_witness :
    (applyPositionSmoothing 0.1 [] ⟨1, 2, 3⟩).2 = ⟨1, 2, 3⟩ :=
  (applyPositionSmoothing_weighted_average 0.1 [] ⟨1, 2, 3⟩).1 (by decide)

lemma storedHistory_le (history : List Vec3) (newPosition : Vec3)
    (h : history.length ≤ maxHistorySize) :
    (storedHistory history newPosition).length ≤ maxHistorySize := by
  unfold storedHistory
  simp only []
  split_ifs with hc
  · rw [List.length_tail]
    simp only [List.length_append, List.length_singleton]
    omega
  · simp only [List.length_append, List.length_singleton] at hc ⊢
    omega

lemma mapBreadboard_history_le (p : MapperParams) (o : ℚ → ℚ → DepthQueryResult)
    (st : MapperState) (bX bY : ℚ)
    (hinv : ∀ k, (st.positionHistory k).length ≤ maxHistorySize) :
    ∀ k, (((mapBreadboardToWorldPosition p o st bX bY).1).positionHistory k).length ≤
      maxHistorySize := by
  intro k
  unfold mapBreadboardToWorldPosition
  simp only []
  by_cases hs : p.enablePositionSmoothing
  · simp only [hs, if_true]
    by_cases hk : k = (bX, bY)
    · simp only [hk, if_pos rfl]
      rw [applyPositionSmoothing_eq]
      exact storedHistory_le _ _ (hinv _)
    · simp only [if_neg hk]
      exact hinv k
  · simp only [hs, if_false]
    exact hinv k

lemma runCalls_history_le (p : MapperParams) (calls : List MapperCall) (st : MapperState)
    (hinv : ∀ k, (st.positionHistory k).length ≤ maxHistorySize) :
    ∀ k, ((runCalls p st calls).positionHistory k).length ≤ maxHistorySize := by
  induction calls generalizing st with
  | nil => exact hinv
  | cons c cs ih =>
    exact ih _ (mapBreadboard_history_le p c.oracle st c.breadboardX c.breadboardY hinv)

/-- Claim C7: after any sequence of `mapBreadboardToWorldPosition` calls from
the initial state, every per-coordinate history holds at most
`maxHistorySize = 10` positions, and `clearPositionHistory` restores the empty
history. -/
theorem positionHistory_bounded :
    (∀ (p : MapperParams) (calibrationDistance : ℚ) (apiEnabled hasSystem : Bool)
        (calls : List MapperCall) (k : ℚ × ℚ),
      ((runCalls p (initialMapperState p calibrationDistance apiEnabled hasSystem)
          calls).positionHistory k).length ≤ maxHistorySize) ∧
    (∀ (st : MapperState) (k : ℚ × ℚ), (clearPositionHistory st).positionHistory k = []) := by
  constructor
  · intro p cd ae hs calls k
    exact runCalls_history_le p calls _ (fun _ => Nat.zero_le _) k
  · intro st k
    rfl

/-- Claim C8: the screen coordinate `((b - 500) / 500) * 0.5 + 0.5` computed by
`mapBreadboardToWorldPosition` equals `b / 1000` on each axis, so the method
queries the depth system exactly at `(breadboardX / 1000, breadboardY / 1000)`:
its result depends on the depth oracle only through that query point. -/
theorem mapBreadboard_queries_depth_at_b_over_1000 (breadboardX breadboardY : ℚ) :
    screenCoordOf breadboardX = breadboardX / 1000 ∧
    (∀ (p : MapperParams) (o1 o2 : ℚ → ℚ → DepthQueryResult) (st : MapperState),
      o1 (breadboardX / 1000) (breadboardY / 1000) =
        o2 (breadboardX / 1000) (breadboardY / 1000) →
      mapBreadboardToWorldPosition p o1 st breadboardX breadboardY =
        mapBreadboardToWorldPosition p o2 st breadboardX breadboardY) := by
  have hsc : ∀ b : ℚ, screenCoordOf b = b / 1000 := by
    intro b
    unfold screenCoordOf
    ring
  refine ⟨hsc _, fun p o1 o2 st hagree => ?_⟩
  unfold mapBreadboardToWorldPosition depthBranch
  rw [hsc breadboardX, hsc breadboardY]
  simp only []
  rw [hagree]

/-- Witness for C8: two oracles that agree at `(0.25, 0.5)` (the query point
for breadboard coordinates `(250, 500)`) yield identical results there. -/
theorem mapBreadboard_queries_depth_witness :
    mapBreadboardToWorldPosition ⟨0.7, 0.2, 0.15, 0.5, true, 0.1⟩
        (fun sx _ => if sx = 250 / 1000 then DepthQueryResult.missing else DepthQueryResult.throws)
        (initialMapperState ⟨0.7, 0.2, 0.15, 0.5, true, 0.1⟩ 0.5 false false) 250 500 =
      mapBreadboardToWorldPosition ⟨0.7, 0.2, 0.15, 0.5, true, 0.1⟩
        (fun _ _ => DepthQueryResult.missing)
        (initialMapperState ⟨0.7, 0.2, 0.15, 0.5, true, 0.1⟩ 0.5 false false) 250 500 :=
  (mapBreadboard_queries_depth_at_b_over_1000 250 500).2 _ _ _ _ (by simp)

end Relay.BreadboardDepthMapper

namespace Relay.BreadboardAROverlay

open Relay

/-- Claim C9: `removeOverlay` on an id absent from `activeOverlays` returns
`false` and leaves the whole state — the overlay map, every stored element and
the `overlayRemovedEvent` log — unchanged; on any present id it returns
`true`. -/
theorem removeOverlay_absent_id (st : OverlayState) (overlayId : String) :
    (mapGet st.activeOverlays overlayId = none →
      removeOverlay st overlayId = (st, false)) ∧
    (∀ o : AROverlayElement, mapGet st.activeOverlays overlayId = some o →
      (removeOverlay st overlayId).2 = true) := by
  constructor
  · intro h
    unfold removeOverlay
    rw [h]
  · intro o h
    unfold removeOverlay
    rw [h]
    simp only []
    split_ifs <;> rfl

/-- Witness for C9: removing from the empty overlay state fails and changes
nothing. -/
theorem removeOverlay_absent_id_witness :
    removeOverlay ⟨[], 0, [], []⟩ "hole_0" = (⟨[], 0, [], []⟩, false) :=
  (removeOverlay_absent_id ⟨[], 0, [], []⟩ "hole_0").1 rfl

lemma highlightBreadboardHole_created (s : OverlaySettings) (worldPosOf : ℚ → ℚ → Vec3)
    (st : OverlayState) (bX bY : ℚ) (color : String) (duration : ℚ) :
    ((highlightBreadboardHole s worldPosOf st bX bY color duration).1).created =
      st.created ++ ["hole_" ++ toString st.overlayCounter] := by
  unfold highlightBreadboardHole createInvertedHullHighlight createFresnelGlowHighlight
    createSimpleHighlight
  simp only []
  split_ifs <;> rfl

lemma showPlacementGuidance_created_length (s : OverlaySettings) (worldPosOf : ℚ → ℚ → Vec3)
    (st : OverlayState) (component : DetectedComponent) (targetHole : BreadboardHole) :
    (showPlacementGuidance s worldPosOf st component targetHole).created.length =
      st.created.length + 2 := by
  unfold showPlacementGuidance showComponentLabel
  simp only []
  rw [List.length_append, highlightBreadboardHole_created, List.length_append]
  simp

lemma foldl_guidance_created_length (s : OverlaySettings) (worldPosOf : ℚ → ℚ → Vec3)
    (l : List (DetectedComponent × BreadboardHole)) (st : OverlayState) :
    (l.foldl (fun st ct => showPlacementGuidance s worldPosOf st ct.1 ct.2) st).created.length =
      st.created.length + 2 * l.length := by
  induction l generalizing st with
  | nil => simp
  | cons c cs ih =>
    rw [List.foldl_cons, ih, showPlacementGuidance_created_length, List.length_cons]
    ring

/-- Claim C10: `showPlacementSequence` with arrays of different lengths
returns without touching the state (no overlay is created, the counter and the
`overlayCreatedEvent` log are unchanged); with equal lengths it shows placement
guidance for every index in order, creating two overlays (hole highlight and
label) per pair. -/
theorem showPlacementSequence_length_guard (s : OverlaySettings) (worldPosOf : ℚ → ℚ → Vec3)
    (st : OverlayState) (components : List DetectedComponent)
    (targetHoles : List BreadboardHole) :
    (components.length ≠ targetHoles.length →
      showPlacementSequence s worldPosOf st components targetHoles = st) ∧
    (components.length = targetHoles.length →
      showPlacementSequence s worldPosOf st components targetHoles =
        (components.zip targetHoles).foldl
          (fun st ct => showPlacementGuidance s worldPosOf st ct.1 ct.2) st ∧
      (showPlacementSequence s worldPosOf st components
          targetHoles).created.length =
        st.created.length + 2 * components.length) := by
  constructor
  · intro hne
    unfold showPlacementSequence
    simp [hne]
  · intro heq
    have hfold : showPlacementSequence s worldPosOf st components targetHoles =
        (components.zip targetHoles).foldl
          (fun st ct => showPlacementGuidance s worldPosOf st ct.1 ct.2) st := by
      unfold showPlacementSequence
      simp [heq]
    refine ⟨hfold, ?_⟩
    rw [hfold, foldl_guidance_created_length, List.length_zip, heq, min_self]

/-- Witness for C10: a one-component, zero-hole call leaves the empty state
unchanged. -/
theorem showPlacementSequence_length_guard_witness :
    showPlacementSequence ⟨0.02, 1, 0.05, "inverted_hull", true, true, true⟩
        (fun x y => ⟨x, y, 0.5⟩) ⟨[], 0, [], []⟩
        [⟨ComponentType.resistor, 0, 0, 1, none⟩] [] =
      ⟨[], 0, [], []⟩ :=
  (showPlacementSequence_length_guard ⟨0.02, 1, 0.05, "inverted_hull", true, true, true⟩
    (fun x y => ⟨x, y, 0.5⟩) ⟨[], 0, [], []⟩
    [⟨ComponentType.resistor, 0, 0, 1, none⟩] []).1 (by decide)

end Relay.BreadboardAROverlay
